import Mathlib

/-!
Shallow embedding of `lcdprocjs` (src/lcdprocjs.js), an LCDproc protocol
client: connection handshake and capability parsing, screen/widget id
allocation, command serialization, and the widget hierarchy with its
positional-parameter caching.  JavaScript objects used as ordered string-keyed
maps are embedded as insertion-ordered association lists, JavaScript numbers
as rationals (with a `nan` marker), and every command handed to the transport
as the flattened token list that `Client.prototype._write` joins with spaces.
-/

namespace Lcdprocjs

/-- Embedding of the JavaScript values that flow through the client: the
fields of `lcdprocConfig`, widget parameters and config values are numbers,
strings, `undefined`, or `NaN`. -/
inductive JVal where
  | undef
  | nan
  | num (q : ℚ)
  | str (s : String)
deriving DecidableEq, Repr

/-! JavaScript string primitives used by the client, embedded as structural
functions on the character list of a `String` (the protocol text is ASCII, so
JavaScript's UTF-16 indexing coincides with character indexing). -/

/-- Whitespace as trimmed by `String.prototype.trim` (ASCII cases). -/
def isWsChar (c : Char) : Bool :=
  c = ' ' || c = '\t' || c = '\n' || c = '\r'

/-- JavaScript `s.trim()`. -/
def jsTrim (s : String) : String :=
  ⟨((s.data.dropWhile isWsChar).reverse.dropWhile isWsChar).reverse⟩

/-- Split a character list on a separator character; the JavaScript
`s.split(sep)` semantics for a one-character separator (the client only splits
on a space, a newline, or a dot). -/
def splitChars (sep : Char) : List Char → List (List Char)
  | [] => [[]]
  | c :: rest =>
    let r := splitChars sep rest
    if c = sep then [] :: r
    else
      match r with
      | [] => [[c]]
      | h :: t => (c :: h) :: t

/-- JavaScript `s.split(sep)` for a one-character separator. -/
def jsSplit (s : String) (sep : Char) : List String :=
  (splitChars sep s.data).map (fun l => ⟨l⟩)

/-- JavaScript `s.substring(0, e)`. -/
def jsSubstringTo (s : String) (e : ℕ) : String :=
  ⟨s.data.take e⟩

/-- JavaScript `s.substring(b)`. -/
def jsSubstringFrom (s : String) (b : ℕ) : String :=
  ⟨s.data.drop b⟩

/-- JavaScript `s.indexOf(p) == 0`, i.e. `p` is a prefix of `s`. -/
def jsStartsWith (s p : String) : Bool :=
  p.data.isPrefixOf s.data

/-- Decimal value of a digit list (helper for number parsing). -/
def digitsVal (l : List Char) : ℕ :=
  l.foldl (fun a c => 10 * a + (c.toNat - 48)) 0

/-- Parse a nonempty all-digit character list. -/
def parseDigits (l : List Char) : Option ℕ :=
  if l.isEmpty then none
  else if l.all Char.isDigit then some (digitsVal l) else none

/-- JavaScript `ToNumber` on the strings the protocol delivers: whitespace is
trimmed, the empty string is `0`, then an optional minus sign and decimal
digits with an optional fractional part; anything else is `NaN` (`none`). -/
def strToNumber (s : String) : Option ℚ :=
  let t := jsTrim s
  if t = "" then some 0
  else
    let neg := jsStartsWith t "-"
    let body := if neg then jsSubstringFrom t 1 else t
    let q : Option ℚ :=
      match splitChars '.' body.data with
      | [i] => (parseDigits i).map (fun n => (n : ℚ))
      | [i, f] =>
        match parseDigits i, parseDigits f with
        | some a, some b => some ((a : ℚ) + (b : ℚ) / (10 : ℚ) ^ f.length)
        | _, _ => none
      | _ => none
    q.map (fun v => if neg then -v else v)

/-- JavaScript `ToNumber` on an embedded value (`none` plays `NaN`). -/
def JVal.toNumber : JVal → Option ℚ
  | .undef => none
  | .nan => none
  | .num q => some q
  | .str s => strToNumber s

/-- Numeric binary operator with JavaScript `NaN` propagation (the bar-length
expression only ever applies `+ - *` to number operands). -/
def jsBin (f : ℚ → ℚ → ℚ) (a b : JVal) : JVal :=
  match a.toNumber, b.toNumber with
  | some x, some y => .num (f x y)
  | _, _ => .nan

def jsAdd : JVal → JVal → JVal := jsBin (· + ·)

def jsSub : JVal → JVal → JVal := jsBin (· - ·)

def jsMul : JVal → JVal → JVal := jsBin (· * ·)

/-- JavaScript `Math.round`: half-up rounding (halves go toward `+∞`),
computed with the executable `Rat.floor` (equal to `⌊q + 1/2⌋`). -/
def mathRound (v : JVal) : JVal :=
  match v.toNumber with
  | some q => .num (((q + 1 / 2).floor : ℤ) : ℚ)
  | none => .nan

/-- JavaScript unary `+` applied to an optional indexing result
(`+params[i+1]`): a missing element is `undefined`, which converts to `NaN`. -/
def jsUnaryPlus : Option String → JVal
  | none => .nan
  | some s => match strToNumber s with
    | some q => .num q
    | none => .nan

/-- Raw assignment of an optional indexing result (`params[i+1]`). -/
def jsOptStr : Option String → JVal
  | none => .undef
  | some s => .str s

/-! JavaScript objects used as maps (`this.screens`, `this.widgets`,
`this.config`): insertion-ordered association lists with unique keys. -/

/-- Property read `m[k]` (`undefined` is `none`). -/
def jsGet : List (String × α) → String → Option α
  | [], _ => none
  | kv :: rest, k => if kv.1 = k then some kv.2 else jsGet rest k

/-- Property assignment `m[k] = v`: an existing key is updated in place, a new
key is appended at the end (JavaScript insertion order). -/
def jsSet : List (String × α) → String → α → List (String × α)
  | [], k, v => [(k, v)]
  | kv :: rest, k, v => if kv.1 = k then (k, v) :: rest else kv :: jsSet rest k v

/-- Property removal `delete m[k]`. -/
def jsDelete : List (String × α) → String → List (String × α)
  | [], _ => []
  | kv :: rest, k => if kv.1 = k then jsDelete rest k else kv :: jsDelete rest k

/-! Serializer utilities (bottom of src/lcdprocjs.js). -/

/-- Model of `quoteString`: wrap the string in brace delimiters, with no escaping or
validation of its characters. -/
def quoteString (str : String) : String :=
  "\x7b" ++ str ++ "\x7d"

/-- Model of `flattenObj`: flatten a config object into `[key, value, key, value, ...]`,
prefixing each key with a dash unless `donotdashkeys` is set; `_.forOwn`
iterates the object's own keys in insertion order. -/
def flattenObj (obj : List (String × JVal)) (donotdashkeys : Bool) : List JVal :=
  obj.foldl (fun out kv =>
    out ++ [JVal.str ((if donotdashkeys then "" else "-") ++ kv.1), kv.2]) []

/-! Client state and the inbound data handler. -/

/-- One token list handed to `Client.prototype._write`, which joins the tokens
with single spaces and appends a newline (nested arrays are already spliced
into the list). -/
abbrev Cmd := List JVal

/-- The `size` / `cellsize` records of `lcdprocConfig`. -/
structure JSize where
  width : JVal
  height : JVal
deriving DecidableEq, Repr

/-- The negotiated capabilities record `this.lcdprocConfig`. -/
structure LcdprocConfig where
  version : JVal
  protocol : JVal
  size : JSize
  cellsize : JSize
deriving DecidableEq, Repr

/-- Zero initial capabilities set by the `Client` constructor. -/
def initLcdprocConfig : LcdprocConfig :=
  { version := .num 0, protocol := .num 0,
    size := { width := .num 0, height := .num 0 },
    cellsize := { width := .num 0, height := .num 0 } }

/-- A widget as stored in a screen's `widgets` map: its protocol type and the
cached `this.params` of the most recent `setParams` (absent before one). -/
structure Widget where
  widgetType : String
  params : Option (List JVal)
deriving DecidableEq, Repr

/-- A screen: its id, stored config, widget map and widget-id counter. -/
structure Screen where
  screenId : String
  config : List (String × JVal)
  widgets : List (String × Widget)
  widgetCnt : ℕ
deriving DecidableEq, Repr

/-- A client: configured name, capabilities, screen registry and counter. -/
structure Client where
  name : String
  lcdprocConfig : LcdprocConfig
  screens : List (String × Screen)
  screenCnt : ℕ
deriving DecidableEq, Repr

/-- A freshly constructed client (default name is "lcdprocjs"). -/
def initClient (name : String) : Client :=
  { name := name, lcdprocConfig := initLcdprocConfig, screens := [], screenCnt := 0 }

/-- Notifications the data handler emits to user code. -/
inductive Ev where
  | ready
  | shown (id : String)
  | hidden (id : String)
deriving DecidableEq, Repr

/-- One step of the `params.forEach` switch in the `connect` branch of the
data handler: recognized keys store the following token. -/
def connectStep (cfg : LcdprocConfig) (params : List String) (i : ℕ) (value : String) :
    LcdprocConfig :=
  match value with
  | "LCDproc" => { cfg with version := jsOptStr (params.get? (i + 1)) }
  | "protocol" => { cfg with protocol := jsOptStr (params.get? (i + 1)) }
  | "wid" => { cfg with size := { cfg.size with width := jsUnaryPlus (params.get? (i + 1)) } }
  | "hgt" => { cfg with size := { cfg.size with height := jsUnaryPlus (params.get? (i + 1)) } }
  | "cellwid" =>
    { cfg with cellsize := { cfg.cellsize with width := jsUnaryPlus (params.get? (i + 1)) } }
  | "cellhgt" =>
    { cfg with cellsize := { cfg.cellsize with height := jsUnaryPlus (params.get? (i + 1)) } }
  | _ => cfg

/-- Dispatch of one inbound message line (the non-`connect` branch of the data
handler): `success` is dropped, `listen <id>` / `ignore <id>` notify the
registered screen if present and are silently dropped otherwise. -/
def processMsg (c : Client) (msg : String) : List Ev :=
  if msg = "success" then []
  else
    let m := jsSubstringTo msg 6
    if m = "listen" then
      if (jsGet c.screens (jsSubstringFrom msg 7)).isSome then
        [.shown (jsSubstringFrom msg 7)]
      else []
    else if m = "ignore" then
      if (jsGet c.screens (jsSubstringFrom msg 7)).isSome then
        [.hidden (jsSubstringFrom msg 7)]
      else []
    else []

/-- The socket `data` handler: the chunk is trimmed; a chunk starting with
`connect` is parsed as the handshake response, answers `client_set -name
\x7b<name>\x7d` and emits `ready`; any other chunk is split on newlines and each
line dispatched in order.  Returns the new state, the commands written and the
notifications emitted. -/
def processChunk (c : Client) (buf : String) : Client × List Cmd × List Ev :=
  let data := jsTrim buf
  if jsStartsWith data "connect" then
    let params := jsSplit data ' '
    let cfg := params.enum.foldl (fun acc p => connectStep acc params p.1 p.2) c.lcdprocConfig
    ({ c with lcdprocConfig := cfg },
     [[.str "client_set", .str "-name", .str (quoteString c.name)]],
     [.ready])
  else
    (c, [], (jsSplit data '\n').flatMap (processMsg c))

/-- Delivering a sequence of inbound chunks, accumulating commands/events. -/
def processChunks (c : Client) : List String → Client × List Cmd × List Ev
  | [] => (c, [], [])
  | ch :: rest =>
    let r := processChunk c ch
    let rr := processChunks r.1 rest
    (rr.1, r.2.1 ++ rr.2.1, r.2.2 ++ rr.2.2)

/-! Screen registry operations. -/

/-- Model of `Client.prototype._newScreenId`: `<name>_s<N>` with a post-incremented
per-client counter. -/
def newScreenId (c : Client) : String × Client :=
  (c.name ++ "_s" ++ Nat.repr c.screenCnt, { c with screenCnt := c.screenCnt + 1 })

/-- Model of `Screen.prototype.setConfig`: a no-op on an empty config; otherwise the
supplied keys are merged into the stored config (`_.assign`) and one
`screen_set <id>` command is written with the flattened supplied config. -/
def screenSetConfig (s : Screen) (config : List (String × JVal)) : Screen × List Cmd :=
  if config.isEmpty then (s, [])
  else
    ({ s with config := config.foldl (fun b kv => jsSet b kv.1 kv.2) s.config },
     [[.str "screen_set", .str s.screenId] ++ flattenObj config false])

/-- The `Screen` constructor: fresh maps and counter, an immediate
`screen_add <id>` command, then `setConfig` on the initial config. -/
def mkScreen (id : String) (config : List (String × JVal)) : Screen × List Cmd :=
  let s : Screen := { screenId := id, config := [], widgets := [], widgetCnt := 0 }
  let r := screenSetConfig s config
  (r.1, [JVal.str "screen_add", JVal.str id] :: r.2)

/-- Model of `Client.prototype.addScreen`: allocate the next id, construct the screen
(which writes its commands) and register it.  Also returns the new id. -/
def addScreen (c : Client) (config : List (String × JVal)) : Client × List Cmd × String :=
  let r := newScreenId c
  let sc := mkScreen r.1 config
  ({ r.2 with screens := jsSet r.2.screens r.1 sc.1 }, sc.2, r.1)

/-- Model of `Screen.prototype.delete` on a registered screen: write `screen_del <id>`
and remove the screen from the client's registry (`_unrefScreen`). -/
def screenDelete (c : Client) (sid : String) : Client × List Cmd :=
  ({ c with screens := jsDelete c.screens sid }, [[.str "screen_del", .str sid]])

/-! Widget construction and the widget-id allocator. -/

/-- Model of `Screen.prototype._newWidgetId`: `<screenId>_w<N>` with a post-incremented
per-screen counter. -/
def newWidgetId (s : Screen) : String × Screen :=
  (s.screenId ++ "_w" ++ Nat.repr s.widgetCnt, { s with widgetCnt := s.widgetCnt + 1 })

/-- Shared body of the numbered factory methods (`addWidget`, `addString`,
`addHorizontalBar`, `addVerticalBar`, `addIcon`, `addBigNumber`): allocate an
id, construct the widget (which writes `widget_add`), register and return it. -/
def addNumberedWidget (s : Screen) (t : String) : Screen × List Cmd × String :=
  let r := newWidgetId s
  ({ r.2 with widgets := jsSet r.2.widgets r.1 { widgetType := t, params := none } },
   [[.str "widget_add", .str s.screenId, .str r.1, .str t]], r.1)

/-- Model of `Screen.prototype.addTitle`: the fixed id `<screenId>_wTITLE`; a new
`TitleWidget` is constructed only when none is registered yet, otherwise the
existing instance is returned unchanged. -/
def addTitle (s : Screen) : Screen × List Cmd × String :=
  let id := s.screenId ++ "_wTITLE"
  if (jsGet s.widgets id).isSome then (s, [], id)
  else
    ({ s with widgets := jsSet s.widgets id { widgetType := "title", params := none } },
     [[.str "widget_add", .str s.screenId, .str id, .str "title"]], id)

/-- The widget factory methods of a screen. -/
inductive SOp where
  | addTitle
  | addString
  | addHorizontalBar
  | addVerticalBar
  | addIcon
  | addBigNumber
  | addWidget (t : String)
deriving DecidableEq, Repr

/-- Run one factory method. -/
def runSOp (s : Screen) : SOp → Screen × List Cmd × String
  | .addTitle => Lcdprocjs.addTitle s
  | .addString => addNumberedWidget s "string"
  | .addHorizontalBar => addNumberedWidget s "hbar"
  | .addVerticalBar => addNumberedWidget s "vbar"
  | .addIcon => addNumberedWidget s "icon"
  | .addBigNumber => addNumberedWidget s "num"
  | .addWidget t => addNumberedWidget s t

/-- Run a sequence of factory methods, collecting the returned widget ids in
call order. -/
def runSOps (s : Screen) : List SOp → Screen × List String
  | [] => (s, [])
  | op :: ops =>
    let r := runSOp s op
    let rest := runSOps r.1 ops
    (rest.1, r.2.2 :: rest.2)

/-- The ids returned by the numbered (non-title) factory calls of a sequence,
in call order. -/
def numberedIds (s : Screen) : List SOp → List String
  | [] => []
  | op :: ops =>
    let r := runSOp s op
    (if op = SOp.addTitle then [] else [r.2.2]) ++ numberedIds r.1 ops

/-- Client-level call sequences: `addScreen`, or a factory method invoked on a
registered screen (identified by its id). -/
inductive COp where
  | addScreen (config : List (String × JVal))
  | screenOp (sid : String) (op : SOp)
deriving DecidableEq, Repr

/-- Run one client-level call; returns the ids of screens generated by it. -/
def runCOp (c : Client) : COp → Client × List String
  | .addScreen config => let r := addScreen c config; (r.1, [r.2.2])
  | .screenOp sid op =>
    match jsGet c.screens sid with
    | none => (c, [])
    | some s =>
      let r := runSOp s op
      ({ c with screens := jsSet c.screens sid r.1 }, [])

/-- Run a client-level call sequence, collecting generated screen ids. -/
def runCOps (c : Client) : List COp → Client × List String
  | [] => (c, [])
  | op :: ops =>
    let r := runCOp c op
    let rest := runCOps r.1 ops
    (rest.1, r.2 ++ rest.2)

/-! Widget update methods.  Each method of the JavaScript prototype chain
reads `this.params` (the cache) and possibly the client's `lcdprocConfig`,
and funnels into `Widget.prototype.setParams`, which records the values and
writes one `widget_set` command.  The methods are embedded as functions of the
pieces of state they read, returning the new cache and the command. -/

/-- Model of `Widget.prototype.setParams`. -/
def setParams (screenId widgetId : String) (vals : List JVal) : Option (List JVal) × Cmd :=
  (some vals, [.str "widget_set", .str screenId, .str widgetId] ++ vals)

/-- Model of `TitleWidget.prototype.setTitle`. -/
def titleSetTitle (screenId widgetId : String) (text : String) : Option (List JVal) × Cmd :=
  setParams screenId widgetId [.str (quoteString text)]

/-- Model of `StringWidget.prototype.set`. -/
def stringSet (screenId widgetId : String) (x y : JVal) (text : String) :
    Option (List JVal) × Cmd :=
  setParams screenId widgetId [x, y, .str (quoteString text)]

/-- Model of `StringWidget.prototype.setPos` (also installed as `setPos` on both bar
widgets): with no cached params the third parameter defaults to the number
`0`, otherwise the cached third parameter is reused verbatim. -/
def stringSetPos (screenId widgetId : String) (params : Option (List JVal)) (x y : JVal) :
    Option (List JVal) × Cmd :=
  match params with
  | none => setParams screenId widgetId [x, y, .num 0]
  | some ps => setParams screenId widgetId [x, y, ps.getD 2 .undef]

/-- Model of `StringWidget.prototype.setText`: reuses the cached position, defaulting
to `(1, 1)`. -/
def stringSetText (screenId widgetId : String) (params : Option (List JVal)) (text : String) :
    Option (List JVal) × Cmd :=
  match params with
  | none => stringSet screenId widgetId (.num 1) (.num 1) text
  | some ps => stringSet screenId widgetId (ps.getD 0 .undef) (ps.getD 1 .undef) text

/-- Model of `HorizontalBarWidget.prototype.set`: the third parameter is
`Math.round((size.width - x + 1) * cellsize.width * percent)`. -/
def hbarSet (cfg : LcdprocConfig) (screenId widgetId : String) (x y percent : JVal) :
    Option (List JVal) × Cmd :=
  setParams screenId widgetId
    [x, y, mathRound (jsMul (jsMul (jsAdd (jsSub cfg.size.width x) (.num 1))
      cfg.cellsize.width) percent)]

/-- Model of `HorizontalBarWidget.prototype.setValue`: reuses the cached position,
defaulting to `(1, 1)`, and recomputes through `set`. -/
def hbarSetValue (cfg : LcdprocConfig) (screenId widgetId : String)
    (params : Option (List JVal)) (percent : JVal) : Option (List JVal) × Cmd :=
  match params with
  | none => hbarSet cfg screenId widgetId (.num 1) (.num 1) percent
  | some ps => hbarSet cfg screenId widgetId (ps.getD 0 .undef) (ps.getD 1 .undef) percent

/-- Model of `VerticalBarWidget.prototype.set`: the third parameter is
`Math.round(y * cellsize.height * percent)`. -/
def vbarSet (cfg : LcdprocConfig) (screenId widgetId : String) (x y percent : JVal) :
    Option (List JVal) × Cmd :=
  setParams screenId widgetId [x, y, mathRound (jsMul (jsMul y cfg.cellsize.height) percent)]

/-- Model of `VerticalBarWidget.prototype.setValue` (shared with the horizontal bar;
`this.set` dispatches to the vertical bar's `set`). -/
def vbarSetValue (cfg : LcdprocConfig) (screenId widgetId : String)
    (params : Option (List JVal)) (percent : JVal) : Option (List JVal) × Cmd :=
  match params with
  | none => vbarSet cfg screenId widgetId (.num 1) (.num 1) percent
  | some ps => vbarSet cfg screenId widgetId (ps.getD 0 .undef) (ps.getD 1 .undef) percent

/-- Model of `IconWidget.prototype.set`: the icon name is sent unquoted. -/
def iconSet (screenId widgetId : String) (x y : JVal) (iconname : String) :
    Option (List JVal) × Cmd :=
  setParams screenId widgetId [x, y, .str iconname]

/-- Model of `IconWidget.prototype.setIcon`: reuses the cached position, defaulting to
`(1, 1)`. -/
def iconSetIcon (screenId widgetId : String) (params : Option (List JVal)) (iconname : String) :
    Option (List JVal) × Cmd :=
  match params with
  | none => iconSet screenId widgetId (.num 1) (.num 1) iconname
  | some ps => iconSet screenId widgetId (ps.getD 0 .undef) (ps.getD 1 .undef) iconname

/-- Model of `BigNumberWidget.prototype.set`. -/
def bigNumberSet (screenId widgetId : String) (x number : JVal) : Option (List JVal) × Cmd :=
  setParams screenId widgetId [x, number]

/-- Model of `HorizontalBarWidget.prototype.setPos = StringWidget.prototype.setPos`:
the string widget's function object is installed unchanged on the horizontal
bar prototype. -/
def hbarSetPos : String → String → Option (List JVal) → JVal → JVal →
    Option (List JVal) × Cmd :=
  stringSetPos

/-- Model of `VerticalBarWidget.prototype.setPos = StringWidget.prototype.setPos`. -/
def vbarSetPos : String → String → Option (List JVal) → JVal → JVal →
    Option (List JVal) × Cmd :=
  stringSetPos

/-- Capabilities with display width 20, height 4, cell width 5 and cell
height 8: the state left by the example handshake, used by the spec's
concrete bar examples. -/
def cfg20 : LcdprocConfig :=
  { version := .str "0.5.7", protocol := .str "0.3",
    size := { width := .num 20, height := .num 4 },
    cellsize := { width := .num 5, height := .num 8 } }

/-- Recognizer for `addScreen` calls. -/
def isAddScreen : COp → Bool
  | .addScreen _ => true
  | .screenOp _ _ => false

/-- Recognizer for `addTitle` calls. -/
def isTitleOp : SOp → Bool
  | .addTitle => true
  | _ => false

/-- Widget type string of each factory method. -/
def sopType : SOp → String
  | .addTitle => "title"
  | .addString => "string"
  | .addHorizontalBar => "hbar"
  | .addVerticalBar => "vbar"
  | .addIcon => "icon"
  | .addBigNumber => "num"
  | .addWidget t => t

/-! Decimal ids: `Nat.repr` is injective, hence counter-generated ids are
pairwise distinct.  Proved through the decimal decoder `digitsVal`. -/

theorem digitsVal_append_singleton (l : List Char) (c : Char) :
    digitsVal (l ++ [c]) = 10 * digitsVal l + (c.toNat - 48) := by
  simp [digitsVal, List.foldl_append]

theorem digitChar_val (d : ℕ) (h : d < 10) : (Nat.digitChar d).toNat - 48 = d := by
  interval_cases d <;> decide

theorem toDigitsCore_append (n : ℕ) : ∀ fuel ds, n < fuel →
    Nat.toDigitsCore 10 fuel n ds = Nat.toDigitsCore 10 (n + 1) n [] ++ ds := by
  induction n using Nat.strong_induction_on with
  | _ n ih =>
    intro fuel ds h
    obtain ⟨f, rfl⟩ : ∃ f, fuel = f + 1 := ⟨fuel - 1, by omega⟩
    by_cases h10 : n / 10 = 0
    · simp [Nat.toDigitsCore, h10]
    · have hne : n ≠ 0 := fun h0 => h10 (by simp [h0])
      have hlt : n / 10 < n := Nat.div_lt_self (Nat.pos_of_ne_zero hne) (by omega)
      have e1 : Nat.toDigitsCore 10 (f + 1) n ds
          = Nat.toDigitsCore 10 f (n / 10) (Nat.digitChar (n % 10) :: ds) := by
        simp [Nat.toDigitsCore, h10]
      have e2 : Nat.toDigitsCore 10 (n + 1) n []
          = Nat.toDigitsCore 10 n (n / 10) [Nat.digitChar (n % 10)] := by
        simp [Nat.toDigitsCore, h10]
      rw [e1, ih (n / 10) hlt f _ (by omega), e2, ih (n / 10) hlt n _ (by omega)]
      simp

theorem digitsVal_toDigits (n : ℕ) : digitsVal (Nat.toDigits 10 n) = n := by
  induction n using Nat.strong_induction_on with
  | _ n ih =>
    by_cases h10 : n / 10 = 0
    · have hn : n < 10 := by omega
      have hmod : n % 10 = n := Nat.mod_eq_of_lt hn
      have e : Nat.toDigits 10 n = [Nat.digitChar n] := by
        simp [Nat.toDigits, Nat.toDigitsCore, h10, hmod]
      rw [e]
      have := digitChar_val n hn
      simp [digitsVal]
      omega
    · have hne : n ≠ 0 := fun h0 => h10 (by simp [h0])
      have hlt : n / 10 < n := Nat.div_lt_self (Nat.pos_of_ne_zero hne) (by omega)
      have e2 : Nat.toDigitsCore 10 (n + 1) n []
          = Nat.toDigitsCore 10 n (n / 10) [Nat.digitChar (n % 10)] := by
        simp [Nat.toDigitsCore, h10]
      have e : Nat.toDigits 10 n
          = Nat.toDigits 10 (n / 10) ++ [Nat.digitChar (n % 10)] := by
        unfold Nat.toDigits
        rw [e2, toDigitsCore_append (n / 10) n _ (by omega)]
      rw [e, digitsVal_append_singleton, ih (n / 10) hlt,
        digitChar_val (n % 10) (Nat.mod_lt _ (by decide))]
      omega

theorem appendRepr_inj (p q : String) {a b : ℕ}
    (h : p ++ q ++ Nat.repr a = p ++ q ++ Nat.repr b) : a = b := by
  have h2 := congrArg String.data h
  have h2' : (p.data ++ q.data) ++ Nat.toDigits 10 a
      = (p.data ++ q.data) ++ Nat.toDigits 10 b := h2
  have h3 := List.append_cancel_left h2'
  have h4 := congrArg digitsVal h3
  rwa [digitsVal_toDigits, digitsVal_toDigits] at h4

theorem counterId_injective (p q : String) (base : ℕ) :
    Function.Injective (fun n : ℕ => p ++ q ++ Nat.repr (base + n)) := by
  intro a b h
  have := appendRepr_inj p q h
  omega

/-! Lemmas about the object-as-map primitives. -/

theorem jsGet_jsSet (m : List (String × α)) (k : String) (v : α) (k' : String) :
    jsGet (jsSet m k v) k' = if k = k' then some v else jsGet m k' := by
  induction m with
  | nil => simp [jsSet, jsGet]
  | cons kv rest ih =>
    by_cases h1 : kv.1 = k
    · by_cases h2 : k = k' <;> simp [jsSet, jsGet, h1, h2]
    · by_cases h3 : kv.1 = k'
      · have h4 : ¬ k = k' := fun h => h1 (h ▸ h3)
        have h5 : ¬ k' = k := fun h => h4 h.symm
        simp [jsSet, jsGet, h1, h3, h4, h5]
      · simp [jsSet, jsGet, h1, h3, ih]

theorem jsGet_jsDelete (m : List (String × α)) (k k' : String) :
    jsGet (jsDelete m k) k' = if k = k' then none else jsGet m k' := by
  induction m with
  | nil => simp [jsDelete, jsGet]
  | cons kv rest ih =>
    by_cases h1 : kv.1 = k
    · by_cases h2 : k = k'
      · subst h2; simp [jsDelete, h1, ih]
      · have h3 : ¬ kv.1 = k' := fun h => h2 (h1 ▸ h)
        simp [jsDelete, jsGet, h1, h2, h3, ih]
    · by_cases h3 : kv.1 = k'
      · have h4 : ¬ k = k' := fun h => h1 (h ▸ h3)
        have h5 : ¬ k' = k := fun h => h4 h.symm
        simp [jsDelete, jsGet, h1, h3, h4, h5]
      · simp [jsDelete, jsGet, h1, h3, ih]

theorem jsGet_eq_none_of_not_mem (m : List (String × α)) (k : String)
    (h : k ∉ m.map Prod.fst) : jsGet m k = none := by
  induction m with
  | nil => rfl
  | cons kv rest ih =>
    simp only [List.map_cons, List.mem_cons] at h
    push_neg at h
    have h1 : ¬ kv.1 = k := Ne.symm h.1
    simp [jsGet, h1, ih h.2]

/-! Lemmas about the id allocators over call sequences. -/

theorem addTitle_screenId (s : Screen) : (addTitle s).1.screenId = s.screenId := by
  cases h : (jsGet s.widgets (s.screenId ++ "_wTITLE")).isSome <;> simp [addTitle, h]

theorem addTitle_widgetCnt (s : Screen) : (addTitle s).1.widgetCnt = s.widgetCnt := by
  cases h : (jsGet s.widgets (s.screenId ++ "_wTITLE")).isSome <;> simp [addTitle, h]

theorem runSOp_numbered (s : Screen) (op : SOp) (h : isTitleOp op = false) :
    runSOp s op = addNumberedWidget s (sopType op) := by
  cases op <;> simp_all [runSOp, isTitleOp, sopType]

theorem numberedIds_spec (ops : List SOp) : ∀ s : Screen,
    numberedIds s ops
      = (List.range (ops.countP (fun op => !isTitleOp op))).map
          (fun n => s.screenId ++ "_w" ++ Nat.repr (s.widgetCnt + n)) := by
  induction ops with
  | nil => intro s; simp [numberedIds]
  | cons op ops ih =>
    intro s
    by_cases h : isTitleOp op = true
    · have hop : op = SOp.addTitle := by cases op <;> simp_all [isTitleOp]
      subst hop
      simp only [numberedIds, if_pos rfl, List.nil_append, runSOp]
      rw [ih, addTitle_screenId, addTitle_widgetCnt, List.countP_cons]
      simp [isTitleOp]
    · have h' : isTitleOp op = false := by simpa using h
      have hne : ¬ op = SOp.addTitle := by cases op <;> simp_all [isTitleOp]
      simp only [numberedIds, if_neg hne]
      rw [runSOp_numbered s op h', ih, List.countP_cons]
      simp only [addNumberedWidget, newWidgetId, h', Bool.not_false, if_pos]
      rw [List.range_succ_eq_map]
      simp only [List.map_cons, List.map_map, List.singleton_append]
      have he : (fun n => s.screenId ++ "_w" ++ Nat.repr (s.widgetCnt + n)) ∘ Nat.succ
          = fun n => s.screenId ++ "_w" ++ Nat.repr (s.widgetCnt + 1 + n) := by
        funext n
        simp only [Function.comp]
        congr 2
        omega
      rw [he]
      simp

theorem screenIds_spec (ops : List COp) : ∀ c : Client,
    (runCOps c ops).2
      = (List.range (ops.countP isAddScreen)).map
          (fun n => c.name ++ "_s" ++ Nat.repr (c.screenCnt + n)) := by
  induction ops with
  | nil => intro c; simp [runCOps]
  | cons op ops ih =>
    intro c
    cases op with
    | addScreen config =>
      simp only [runCOps, runCOp, addScreen, newScreenId]
      rw [ih, List.countP_cons]
      simp only [isAddScreen, if_pos]
      rw [List.range_succ_eq_map]
      simp only [List.map_cons, List.map_map, List.singleton_append]
      have he : (fun n => c.name ++ "_s" ++ Nat.repr (c.screenCnt + n)) ∘ Nat.succ
          = fun n => c.name ++ "_s" ++ Nat.repr (c.screenCnt + 1 + n) := by
        funext n
        simp only [Function.comp]
        congr 2
        omega
      rw [he]
      simp
    | screenOp sid sop =>
      simp only [runCOps, runCOp]
      cases h : jsGet c.screens sid with
      | none => rw [ih, List.countP_cons]; simp [isAddScreen]
      | some s => rw [ih, List.countP_cons]; simp [isAddScreen]

/-! Lemmas about the data handler. -/

theorem processMsg_ready_not_mem (c : Client) (msg : String) :
    Ev.ready ∉ processMsg c msg := by
  unfold processMsg
  by_cases h1 : msg = "success" <;>
    by_cases h2 : jsSubstringTo msg 6 = "listen" <;>
      by_cases h3 : jsSubstringTo msg 6 = "ignore" <;>
        by_cases h4 : (jsGet c.screens (jsSubstringFrom msg 7)).isSome <;>
          simp [h1, h2, h3, h4]

theorem processChunk_ready_count (c : Client) (buf : String) :
    ((processChunk c buf).2.2).count Ev.ready
      = if jsStartsWith (jsTrim buf) "connect" then 1 else 0 := by
  unfold processChunk
  by_cases h : jsStartsWith (jsTrim buf) "connect"
  · simp [h]
  · simp only [h, Bool.false_eq_true, if_false, if_neg]
    rw [List.count_eq_zero]
    intro hmem
    rw [List.mem_flatMap] at hmem
    obtain ⟨msg, _, hm⟩ := hmem
    exact processMsg_ready_not_mem c msg hm

theorem processChunk_state_of_not_connect (c : Client) (buf : String)
    (h : jsStartsWith (jsTrim buf) "connect" = false) :
    (processChunk c buf).1 = c := by
  unfold processChunk
  simp [h]

theorem processChunks_ready_count (chunks : List String) : ∀ c : Client,
    ((processChunks c chunks).2.2).count Ev.ready
      = chunks.countP (fun ch => jsStartsWith (jsTrim ch) "connect") := by
  induction chunks with
  | nil => intro c; simp [processChunks]
  | cons ch rest ih =>
    intro c
    simp only [processChunks, List.count_append, List.countP_cons]
    rw [ih, processChunk_ready_count]
    by_cases h : jsStartsWith (jsTrim ch) "connect" <;>
      simp [h, Nat.add_comm]

theorem processChunks_state_no_connect (chunks : List String) : ∀ c : Client,
    (∀ ch ∈ chunks, jsStartsWith (jsTrim ch) "connect" = false) →
    (processChunks c chunks).1 = c := by
  induction chunks with
  | nil => intro c _; rfl
  | cons ch rest ih =>
    intro c h
    simp only [processChunks]
    rw [processChunk_state_of_not_connect c ch (h ch (by simp))]
    exact ih c (fun x hx => h x (by simp [hx]))

/-! Remaining helper lemmas. -/

theorem ratFloor_eq_floor (q : ℚ) : q.floor = ⌊q⌋ :=
  (Rat.floor_def' q).trans Rat.floor_def.symm

theorem flattenObj_go (d : Bool) (obj : List (String × JVal)) : ∀ acc : List JVal,
    obj.foldl (fun out kv =>
        out ++ [JVal.str ((if d then "" else "-") ++ kv.1), kv.2]) acc
      = acc ++ obj.flatMap (fun kv => [JVal.str ((if d then "" else "-") ++ kv.1), kv.2]) := by
  induction obj with
  | nil => intro acc; simp
  | cons kv rest ih =>
    intro acc
    rw [List.foldl_cons, ih, List.flatMap_cons]
    simp

theorem jsGet_foldl_jsSet (upd : List (String × JVal)) : ∀ (base : List (String × JVal))
    (k : String), (upd.map Prod.fst).Nodup →
    jsGet (upd.foldl (fun b kv => jsSet b kv.1 kv.2) base) k
      = (jsGet upd k).or (jsGet base k) := by
  induction upd with
  | nil => intro base k _; simp [jsGet]
  | cons kv upd ih =>
    intro base k hnd
    rw [List.map_cons, List.nodup_cons] at hnd
    rw [List.foldl_cons, ih _ k hnd.2]
    by_cases hk : k = kv.1
    · rw [hk, jsGet_eq_none_of_not_mem upd kv.1 hnd.1]
      simp [jsGet, jsGet_jsSet]
    · have hk' : ¬ kv.1 = k := fun h => hk h.symm
      simp [jsGet, jsGet_jsSet, hk, hk']

theorem addTitle_twice (s : Screen) :
    addTitle (addTitle s).1 = ((addTitle s).1, [], s.screenId ++ "_wTITLE") := by
  have hs1 : (jsGet (addTitle s).1.widgets ((addTitle s).1.screenId ++ "_wTITLE")).isSome
      = true := by
    rw [addTitle_screenId]
    cases h : (jsGet s.widgets (s.screenId ++ "_wTITLE")).isSome
    · simp [addTitle, h, jsGet_jsSet]
    · simp [addTitle, h]
  have hsid : (addTitle s).1.screenId = s.screenId := addTitle_screenId s
  generalize hX : (addTitle s).1 = X at hs1 hsid ⊢
  rw [← hsid]
  simp [addTitle, hs1]

/-! The claims. -/

/-- C1: feeding a fresh connection (capabilities at their zero initial
values) the single inbound line `connect LCDproc 0.5.7 protocol 0.3 wid 20
hgt 4 cellwid 5 cellhgt 8` stores exactly version "0.5.7", protocol version
"0.3", size 20 by 4 and cell size 5 by 8, writes exactly one command,
`client_set -name \x7blcdprocjs\x7d`, during the processing of that chunk (hence
after parsing and before any later chunk is handled), and fires `ready`
exactly once. -/
theorem C1_handshake_line :
    processChunk (initClient "lcdprocjs")
        "connect LCDproc 0.5.7 protocol 0.3 wid 20 hgt 4 cellwid 5 cellhgt 8"
      = ({ initClient "lcdprocjs" with lcdprocConfig :=
            { version := .str "0.5.7", protocol := .str "0.3",
              size := { width := .num 20, height := .num 4 },
              cellsize := { width := .num 5, height := .num 8 } } },
         [[.str "client_set", .str "-name", .str (quoteString "lcdprocjs")]],
         [.ready]) := by
  decide

/-- C9: `flattenObj \x7ba:1, b:2\x7d` is exactly `[-a, 1, -b, 2]` and
`quoteString "hi there"` is exactly "\x7bhi there\x7d"; in general `flattenObj`
maps every entry of the (insertion-ordered) mapping to the pair
`[prefix ++ key, value]` in order, with prefix "-" unless dashing is
disabled, and `quoteString` is the plain three-part concatenation with no
escaping of any character (braces and newlines included).  Both are pure
Lean functions, hence side-effect free. -/
theorem C9_serializer :
    flattenObj [("a", .num 1), ("b", .num 2)] false
        = [.str "-a", .num 1, .str "-b", .num 2]
    ∧ quoteString "hi there" = "\x7bhi there\x7d"
    ∧ (∀ (obj : List (String × JVal)) (d : Bool), flattenObj obj d
        = obj.flatMap (fun kv => [JVal.str ((if d then "" else "-") ++ kv.1), kv.2]))
    ∧ (∀ s : String, quoteString s = "\x7b" ++ s ++ "\x7d")
    ∧ quoteString "a\x7bb\x7d\nc" = "\x7ba\x7bb\x7d\nc\x7d" := by
  refine ⟨by decide, by decide, ?_, fun s => rfl, by decide⟩
  intro obj d
  simpa using flattenObj_go d obj []

/-- C5: with no cached params, `StringWidget.setPos(x, y)` sends `[x, y, 0]`
(so `setPos(3, 4)` sends `[3, 4, 0]`) and `setText(text)` sends
`[1, 1, \x7btext\x7d]` (so `setText("hi")` sends `[1, 1, \x7bhi\x7d]`); after a prior
`set(px, py, t0)`, `setPos` reuses the cached quoted text as third parameter
and `setText` reuses the cached `(px, py)`. -/
theorem C5_string_update_defaults (sid wid : String) (x y px py : JVal)
    (text t0 : String) :
    stringSetPos sid wid none x y
      = (some [x, y, .num 0], [.str "widget_set", .str sid, .str wid, x, y, .num 0])
    ∧ (stringSetPos "s" "w" none (.num 3) (.num 4)).2
        = [.str "widget_set", .str "s", .str "w", .num 3, .num 4, .num 0]
    ∧ stringSetText sid wid none text
      = (some [.num 1, .num 1, .str (quoteString text)],
         [.str "widget_set", .str sid, .str wid, .num 1, .num 1, .str (quoteString text)])
    ∧ (stringSetText "s" "w" none "hi").2
        = [.str "widget_set", .str "s", .str "w", .num 1, .num 1, .str "\x7bhi\x7d"]
    ∧ stringSetPos sid wid (stringSet sid wid px py t0).1 x y
        = setParams sid wid [x, y, .str (quoteString t0)]
    ∧ stringSetText sid wid (stringSet sid wid px py t0).1 text
        = setParams sid wid [px, py, .str (quoteString text)] :=
  ⟨rfl, rfl, rfl, rfl, rfl, rfl⟩

/-- C3: for all positions `x, y`, every `percent` and every capabilities
state whose geometry fields are numbers `w`, `cw`, `ch`, the horizontal bar
`set` sends params `[x, y, round((w - x + 1) * cw * percent)]` and the
vertical bar `set` sends `[x, y, round(y * ch * percent)]`, where `round` is
half-up rounding; in particular with width 20 and cell width 5,
`set(1,1,1)` yields length 100 and `set(1,1,0)` yields length 0. -/
theorem C3_bar_formulas (cfg : LcdprocConfig) (sid wid : String) (x y percent : ℚ)
    (w cw ch : ℚ) (hw : cfg.size.width = .num w) (hcw : cfg.cellsize.width = .num cw)
    (hch : cfg.cellsize.height = .num ch) :
    hbarSet cfg sid wid (.num x) (.num y) (.num percent)
      = (some [.num x, .num y, .num ((⌊(w - x + 1) * cw * percent + 1 / 2⌋ : ℤ) : ℚ)],
         [.str "widget_set", .str sid, .str wid, .num x, .num y,
          .num ((⌊(w - x + 1) * cw * percent + 1 / 2⌋ : ℤ) : ℚ)])
    ∧ vbarSet cfg sid wid (.num x) (.num y) (.num percent)
      = (some [.num x, .num y, .num ((⌊y * ch * percent + 1 / 2⌋ : ℤ) : ℚ)],
         [.str "widget_set", .str sid, .str wid, .num x, .num y,
          .num ((⌊y * ch * percent + 1 / 2⌋ : ℤ) : ℚ)])
    ∧ (hbarSet cfg20 "s" "w" (.num 1) (.num 1) (.num 1)).2
        = [.str "widget_set", .str "s", .str "w", .num 1, .num 1, .num 100]
    ∧ (hbarSet cfg20 "s" "w" (.num 1) (.num 1) (.num 0)).2
        = [.str "widget_set", .str "s", .str "w", .num 1, .num 1, .num 0] := by
  refine ⟨?_, ?_, ?_, ?_⟩
  · simp [hbarSet, setParams, mathRound, jsMul, jsSub, jsAdd, jsBin, JVal.toNumber,
      hw, hcw, ratFloor_eq_floor]
  · simp [vbarSet, setParams, mathRound, jsMul, jsBin, JVal.toNumber, hch, ratFloor_eq_floor]
  · simp [hbarSet, setParams, mathRound, jsMul, jsSub, jsAdd, jsBin, JVal.toNumber, cfg20]
    norm_num [ratFloor_eq_floor]
  · simp [hbarSet, setParams, mathRound, jsMul, jsSub, jsAdd, jsBin, JVal.toNumber, cfg20]
    norm_num [ratFloor_eq_floor]

/-- Witness for C3: the hypotheses hold at `cfg20` with `w = 20`, `cw = 5`,
`ch = 8`, instantiated at `x = 2`, `y = 3`, `percent = 1`. -/
theorem C3_bar_formulas_witness :
    hbarSet cfg20 "s" "w" (.num 2) (.num 3) (.num 1)
      = (some [.num 2, .num 3, .num ((⌊((20 : ℚ) - 2 + 1) * 5 * 1 + 1 / 2⌋ : ℤ) : ℚ)],
         [.str "widget_set", .str "s", .str "w", .num 2, .num 3,
          .num ((⌊((20 : ℚ) - 2 + 1) * 5 * 1 + 1 / 2⌋ : ℤ) : ℚ)])
    ∧ vbarSet cfg20 "s" "w" (.num 2) (.num 3) (.num 1)
      = (some [.num 2, .num 3, .num ((⌊(3 : ℚ) * 8 * 1 + 1 / 2⌋ : ℤ) : ℚ)],
         [.str "widget_set", .str "s", .str "w", .num 2, .num 3,
          .num ((⌊(3 : ℚ) * 8 * 1 + 1 / 2⌋ : ℤ) : ℚ)])
    ∧ (hbarSet cfg20 "s" "w" (.num 1) (.num 1) (.num 1)).2
        = [.str "widget_set", .str "s", .str "w", .num 1, .num 1, .num 100]
    ∧ (hbarSet cfg20 "s" "w" (.num 1) (.num 1) (.num 0)).2
        = [.str "widget_set", .str "s", .str "w", .num 1, .num 1, .num 0] :=
  C3_bar_formulas cfg20 "s" "w" 2 3 1 20 5 8 rfl rfl rfl

/-- C4 counterexample: with capabilities width 20 and cell width 5, a
horizontal bar `set(1,1,1)` caches params `[1,1,100]`; the partial update
`setPos(11,1)` then sends `[11,1,100]`, but the full-set formula at the
resulting position and value yields length 50, so the claim that every
partial update yields the recomputed length is false. -/
theorem C4_counterexample :
    (hbarSetPos "s" "w" (hbarSet cfg20 "s" "w" (.num 1) (.num 1) (.num 1)).1
        (.num 11) (.num 1)).2
      = [.str "widget_set", .str "s", .str "w", .num 11, .num 1, .num 100]
    ∧ (hbarSet cfg20 "s" "w" (.num 11) (.num 1) (.num 1)).2
        = [.str "widget_set", .str "s", .str "w", .num 11, .num 1, .num 50]
    ∧ JVal.num 100 ≠ JVal.num 50 := by
  refine ⟨?_, ?_, by decide⟩
  · simp [hbarSetPos, stringSetPos, hbarSet, setParams, mathRound, jsMul, jsSub, jsAdd,
      jsBin, JVal.toNumber, cfg20]
    norm_num [ratFloor_eq_floor]
  · simp [hbarSet, setParams, mathRound, jsMul, jsSub, jsAdd, jsBin, JVal.toNumber, cfg20]
    norm_num [ratFloor_eq_floor]

/-- C4 amended: `setValue`, `setText` and `setIcon` reuse the cached `(x, y)`
and recompute the third parameter through the variant's full `set` (so a bar
`setValue` yields the length the full-set formula produces at the cached
position), while `setPos` reuses the cached third wire parameter verbatim —
for a bar widget the previously computed length, not a recomputed one. -/
theorem C4_update_reuse (cfg : LcdprocConfig) (sid wid : String)
    (px py pv x y percent : JVal) (text iconname : String) :
    hbarSetValue cfg sid wid (some [px, py, pv]) percent = hbarSet cfg sid wid px py percent
    ∧ vbarSetValue cfg sid wid (some [px, py, pv]) percent = vbarSet cfg sid wid px py percent
    ∧ stringSetText sid wid (some [px, py, pv]) text = stringSet sid wid px py text
    ∧ iconSetIcon sid wid (some [px, py, pv]) iconname = iconSet sid wid px py iconname
    ∧ stringSetPos sid wid (some [px, py, pv]) x y = setParams sid wid [x, y, pv]
    ∧ hbarSetPos sid wid (some [px, py, pv]) x y = setParams sid wid [x, y, pv]
    ∧ vbarSetPos sid wid (some [px, py, pv]) x y = setParams sid wid [x, y, pv] :=
  ⟨rfl, rfl, rfl, rfl, rfl, rfl, rfl⟩

/-- C2 counterexample: the data handler has no handshake-done flag, so a
second inbound chunk that begins with `connect` re-enters the handshake
branch: `ready` fires twice and the capabilities are overwritten. -/
theorem C2_counterexample :
    ((processChunks (initClient "lcdprocjs")
        ["connect LCDproc 0.5.7 protocol 0.3 wid 20 hgt 4 cellwid 5 cellhgt 8",
         "connect LCDproc 0.6.0 protocol 0.4 wid 16 hgt 2 cellwid 5 cellhgt 8"]).2.2).count
        Ev.ready = 2
    ∧ (processChunks (initClient "lcdprocjs")
        ["connect LCDproc 0.5.7 protocol 0.3 wid 20 hgt 4 cellwid 5 cellhgt 8",
         "connect LCDproc 0.6.0 protocol 0.4 wid 16 hgt 2 cellwid 5 cellhgt 8"]).1.lcdprocConfig.version
        = .str "0.6.0" :=
  ⟨by decide, by decide⟩

/-- C2 amended: over any chunk sequence, `ready` is emitted exactly once per
chunk whose trimmed text begins with `connect` — hence exactly once when the
sequence contains exactly one such chunk — and the capabilities (indeed the
whole client state) are written only by such chunks. -/
theorem C2_ready_once_per_connect (c : Client) (chunks : List String) :
    ((processChunks c chunks).2.2).count Ev.ready
      = chunks.countP (fun ch => jsStartsWith (jsTrim ch) "connect")
    ∧ ((∀ ch ∈ chunks, jsStartsWith (jsTrim ch) "connect" = false) →
        (processChunks c chunks).1 = c) :=
  ⟨processChunks_ready_count chunks c, processChunks_state_no_connect chunks c⟩

/-- Witness for C2 amended: a sequence of two non-connect chunks emits no
`ready` and leaves the state untouched. -/
theorem C2_ready_once_per_connect_witness :
    ((processChunks (initClient "x") ["listen a", "success"]).2.2).count Ev.ready = 0
    ∧ (processChunks (initClient "x") ["listen a", "success"]).1 = initClient "x" := by
  have h := C2_ready_once_per_connect (initClient "x") ["listen a", "success"]
  exact ⟨h.1.trans (by decide), h.2 (by decide)⟩

/-- C7: `setConfig` with an empty config is a complete no-op (no command
written, stored config unchanged); with a non-empty config it merges the
supplied keys into the stored config with last-write-wins per key (existing
keys overwritten in place, new keys appended) and writes exactly one
`screen_set <id>` command followed by the dash-prefixed key/value pairs of
only the newly supplied config, in the caller's key order. -/
theorem C7_setConfig (s : Screen) (config : List (String × JVal)) (k : String) :
    (config.isEmpty = true → screenSetConfig s config = (s, []))
    ∧ (config.isEmpty = false →
        screenSetConfig s config
          = ({ s with config := config.foldl (fun b kv => jsSet b kv.1 kv.2) s.config },
             [[JVal.str "screen_set", JVal.str s.screenId]
               ++ config.flatMap (fun kv => [JVal.str ("-" ++ kv.1), kv.2])]))
    ∧ ((config.map Prod.fst).Nodup →
        jsGet ((screenSetConfig s config).1).config k
          = (jsGet config k).or (jsGet s.config k)) := by
  have hf : flattenObj config false
      = config.flatMap (fun kv => [JVal.str ("-" ++ kv.1), kv.2]) := by
    have h := flattenObj_go false config []
    simpa [flattenObj] using h
  refine ⟨?_, ?_, ?_⟩
  · intro h; simp [screenSetConfig, h]
  · intro h; simp [screenSetConfig, h, hf]
  · intro hnd
    by_cases he : config.isEmpty
    · have hnil : config = [] := List.isEmpty_iff.mp he
      subst hnil
      simp [screenSetConfig, jsGet]
    · have he' : config.isEmpty = false := by simpa using he
      simp only [screenSetConfig, he', Bool.false_eq_true, if_false]
      exact jsGet_foldl_jsSet config s.config k hnd

/-- Witness for C7: one new key on a screen with an empty stored config. -/
theorem C7_setConfig_witness :
    screenSetConfig { screenId := "c_s0", config := [], widgets := [], widgetCnt := 0 }
        [("priority", JVal.str "info")]
      = ({ screenId := "c_s0", config := [("priority", JVal.str "info")],
           widgets := [], widgetCnt := 0 },
         [[JVal.str "screen_set", JVal.str "c_s0", JVal.str "-priority",
           JVal.str "info"]])
    ∧ jsGet (screenSetConfig
        { screenId := "c_s0", config := [], widgets := [], widgetCnt := 0 }
        [("priority", JVal.str "info")]).1.config "priority"
      = some (JVal.str "info") := by
  have h := C7_setConfig { screenId := "c_s0", config := [], widgets := [], widgetCnt := 0 }
    [("priority", JVal.str "info")] "priority"
  exact ⟨(h.2.1 (by decide)).trans (by decide), (h.2.2 (by decide)).trans (by decide)⟩

/-- C8: deleting a screen writes `screen_del <id>` and removes exactly that
screen from the registry (all other entries unaffected); a later
`listen <deletedId>` or `ignore <deletedId>` message is silently dropped
with no event, and an entire inbound chunk carrying such a line leaves the
client state unchanged, writes nothing and emits nothing. -/
theorem C8_delete_screen (c : Client) (sid sid' : String) (hne : sid' ≠ sid) :
    (screenDelete c sid).2 = [[JVal.str "screen_del", JVal.str sid]]
    ∧ jsGet (screenDelete c sid).1.screens sid = none
    ∧ jsGet (screenDelete c sid).1.screens sid' = jsGet c.screens sid'
    ∧ (∀ cl : Client, jsGet cl.screens sid = none →
        processMsg cl ("listen " ++ sid) = [] ∧ processMsg cl ("ignore " ++ sid) = [])
    ∧ processChunk
        (screenDelete (runCOps (initClient "lcdprocjs") [COp.addScreen []]).1
          "lcdprocjs_s0").1 "listen lcdprocjs_s0"
      = ((screenDelete (runCOps (initClient "lcdprocjs") [COp.addScreen []]).1
          "lcdprocjs_s0").1, [], [])
    ∧ processChunk
        (screenDelete (runCOps (initClient "lcdprocjs") [COp.addScreen []]).1
          "lcdprocjs_s0").1 "ignore lcdprocjs_s0"
      = ((screenDelete (runCOps (initClient "lcdprocjs") [COp.addScreen []]).1
          "lcdprocjs_s0").1, [], []) := by
  refine ⟨rfl, ?_, ?_, ?_, by decide, by decide⟩
  · simp [screenDelete, jsGet_jsDelete]
  · have h1 : ¬ sid = sid' := fun h => hne h.symm
    simp [screenDelete, jsGet_jsDelete, h1]
  · intro cl h
    constructor
    · have hsg : jsSubstringTo ("listen " ++ sid) 6 = "listen" := rfl
      have hsf : jsSubstringFrom ("listen " ++ sid) 7 = sid := rfl
      have hne2 : ¬ ("listen " ++ sid) = "success" := by
        intro hh
        have hh2 : some 'l' = some 's' := congrArg (fun t => t.data.head?) hh
        exact absurd hh2 (by decide)
      simp [processMsg, hsg, hsf, hne2, h]
    · have hsg : jsSubstringTo ("ignore " ++ sid) 6 = "ignore" := rfl
      have hsf : jsSubstringFrom ("ignore " ++ sid) 7 = sid := rfl
      have hne2 : ¬ ("ignore " ++ sid) = "success" := by
        intro hh
        have hh2 : some 'i' = some 's' := congrArg (fun t => t.data.head?) hh
        exact absurd hh2 (by decide)
      have hnl : ¬ jsSubstringTo ("ignore " ++ sid) 6 = "listen" := by
        rw [hsg]; decide
      simp [processMsg, hsg, hsf, hne2, hnl, h]

/-- Witness for C8: the freshly added screen `lcdprocjs_s0` is deleted; the
`screen_del` command is written and its registry entry is gone. -/
theorem C8_delete_screen_witness :
    (screenDelete (runCOps (initClient "lcdprocjs") [COp.addScreen []]).1 "lcdprocjs_s0").2
      = [[JVal.str "screen_del", JVal.str "lcdprocjs_s0"]]
    ∧ jsGet (screenDelete (runCOps (initClient "lcdprocjs") [COp.addScreen []]).1
        "lcdprocjs_s0").1.screens "lcdprocjs_s0" = none := by
  have h := C8_delete_screen (runCOps (initClient "lcdprocjs") [COp.addScreen []]).1
    "lcdprocjs_s0" "other" (by decide)
  exact ⟨h.1, h.2.1⟩

/-- C6: over any client-level call sequence from a fresh client the generated
screen ids are exactly `<name>_s0, <name>_s1, ...` in order (counter from 0,
one increment per `addScreen`) and pairwise distinct; over any factory
sequence on a fresh screen the numbered widget ids are exactly
`<screenId>_w0, <screenId>_w1, ...` and pairwise distinct; no id is reused;
and a second `addTitle` returns the same fixed id `<screenId>_wTITLE` with
the screen state — hence the stored instance — unchanged and no command
written. -/
theorem C6_id_allocation (name : String) (ops : List COp) (sid : String)
    (sops : List SOp) (s : Screen) :
    (runCOps (initClient name) ops).2
      = (List.range (ops.countP isAddScreen)).map (fun n => name ++ "_s" ++ Nat.repr n)
    ∧ ((runCOps (initClient name) ops).2).Nodup
    ∧ numberedIds { screenId := sid, config := [], widgets := [], widgetCnt := 0 } sops
      = (List.range (sops.countP (fun op => !isTitleOp op))).map
          (fun n => sid ++ "_w" ++ Nat.repr n)
    ∧ (numberedIds { screenId := sid, config := [], widgets := [], widgetCnt := 0 } sops).Nodup
    ∧ runSOp (runSOp s SOp.addTitle).1 SOp.addTitle
        = ((runSOp s SOp.addTitle).1, [], s.screenId ++ "_wTITLE")
    ∧ (runSOp s SOp.addTitle).2.2 = s.screenId ++ "_wTITLE" := by
  have hs : (runCOps (initClient name) ops).2
      = (List.range (ops.countP isAddScreen)).map (fun n => name ++ "_s" ++ Nat.repr n) := by
    rw [screenIds_spec]
    simp [initClient]
  have hw : numberedIds { screenId := sid, config := [], widgets := [], widgetCnt := 0 } sops
      = (List.range (sops.countP (fun op => !isTitleOp op))).map
          (fun n => sid ++ "_w" ++ Nat.repr n) := by
    rw [numberedIds_spec]
    simp
  refine ⟨hs, ?_, hw, ?_, addTitle_twice s, ?_⟩
  · rw [hs]
    exact (List.nodup_range _).map (fun a b hab => appendRepr_inj name "_s" hab)
  · rw [hw]
    exact (List.nodup_range _).map (fun a b hab => appendRepr_inj sid "_w" hab)
  · cases h : (jsGet s.widgets (s.screenId ++ "_wTITLE")).isSome <;>
      simp [runSOp, addTitle, h]

/-- C10: `addTitle` does not consume the numeric widget counter: the ids
handed to the numbered factory calls are unchanged when an `addTitle` call
is inserted anywhere in the sequence, or when all `addTitle` calls are
removed; the title itself is stored in the same widgets map under the fixed
id `<screenId>_wTITLE`. -/
theorem C10_title_uncounted (s : Screen) (ops l1 l2 : List SOp) :
    numberedIds s (l1 ++ SOp.addTitle :: l2) = numberedIds s (l1 ++ l2)
    ∧ numberedIds s ops = numberedIds s (ops.filter (fun op => !isTitleOp op))
    ∧ (jsGet (addTitle s).1.widgets (s.screenId ++ "_wTITLE")).isSome = true := by
  refine ⟨?_, ?_, ?_⟩
  · have hc : (l1 ++ SOp.addTitle :: l2).countP (fun op => !isTitleOp op)
        = (l1 ++ l2).countP (fun op => !isTitleOp op) := by
      rw [List.countP_append, List.countP_cons, List.countP_append]
      simp [isTitleOp]
    rw [numberedIds_spec, numberedIds_spec, hc]
  · rw [numberedIds_spec, numberedIds_spec, List.countP_filter]
    simp
  · cases h : (jsGet s.widgets (s.screenId ++ "_wTITLE")).isSome
    · simp [addTitle, h, jsGet_jsSet]
    · simp [addTitle, h]

end Lcdprocjs
